import Mathlib

/-!
# Verification of the slack-summary subprocess protocol client

Shallow embedding of `src/slack_summary.js`. JavaScript strings are
modelled as `List Char`; the stdio line framing, the CSV record decoder,
the JSON-RPC session state machine of `callMCPServer`, and the channel
fetcher are translated definition-by-definition from the source.
-/

namespace SlackSummary

/-- JS `str.split("\n")` on character lists: splits on line-feed, keeping
empty segments, always returning at least one (possibly empty) segment. -/
def splitNl : List Char → List (List Char)
  | [] => [[]]
  | c :: cs =>
    if c = '\n' then [] :: splitNl cs
    else (splitNl cs).modifyHead (fun h => c :: h)

/-- JS `str.trim()` on character lists: strips leading and trailing
whitespace. -/
def jsTrim (l : List Char) : List Char :=
  ((l.dropWhile Char.isWhitespace).reverse.dropWhile Char.isWhitespace).reverse

/-- The decoded message record built by `parseCSVMessages`
(`src/slack_summary.js` lines 86–95). All fields are strings. -/
structure Message where
  UserID : String
  UserName : String
  RealName : String
  Channel : String
  ThreadTs : String
  Text : String
  Time : String
  Cursor : String
deriving Repr, DecidableEq

/-- The quote-aware field splitter of `parseCSVMessages`
(`src/slack_summary.js` lines 60–82), as a recursion over the remaining
characters. `prev` is the previously seen character (`line[j-1]`),
`inQuotes` and `current` are the loop variables, `acc` the `parts` array.
A `"` immediately after a field start (line start or comma) sets
`inQuotes` and is dropped; a `"` while `inQuotes` that is last or
followed by a comma clears `inQuotes` and is dropped; an unquoted comma
ends the field; anything else is appended to the current field. -/
def parseLineAux (prev : Option Char) (inQuotes : Bool)
    (current : List Char) (acc : List (List Char)) :
    List Char → List (List Char)
  | [] => acc ++ [current]
  | c :: rest =>
    if c = '"' ∧ (prev = none ∨ prev = some ',') then
      parseLineAux (some c) true current acc rest
    else if c = '"' ∧ inQuotes = true ∧ (rest.head? = none ∨ rest.head? = some ',') then
      parseLineAux (some c) false current acc rest
    else if c = ',' ∧ inQuotes = false then
      parseLineAux (some c) inQuotes [] (acc ++ [current]) rest
    else
      parseLineAux (some c) inQuotes (current ++ [c]) acc rest

/-- Splitting one CSV line into its fields (the inner loop of
`parseCSVMessages` started on a fresh line). -/
def parseLine (line : List Char) : List (List Char) :=
  parseLineAux none false [] [] line

/-- Mapping one data line to a message, or dropping it
(`src/slack_summary.js` lines 85–101): a line with fewer than 7 fields is
dropped; otherwise the fields are mapped positionally and the message is
kept only when `UserID` is non-empty and differs from the literal
string `"UserID"`. -/
def lineToMessage (line : List Char) : Option Message :=
  let parts := (parseLine line).map (fun cs => String.mk cs)
  if 7 ≤ parts.length then
    let m : Message :=
      { UserID := parts.getD 0 ""
        UserName := parts.getD 1 ""
        RealName := parts.getD 2 ""
        Channel := parts.getD 3 ""
        ThreadTs := parts.getD 4 ""
        Text := parts.getD 5 ""
        Time := parts.getD 6 ""
        Cursor := parts.getD 7 "" }
    if m.UserID ≠ "" ∧ m.UserID ≠ "UserID" then some m else none
  else none

/-- The non-blank lines of the payload after the header line
(`src/slack_summary.js` lines 50–56): empty when fewer than two
non-blank lines exist. -/
def dataLines (csvData : List Char) : List (List Char) :=
  let lines := (splitNl csvData).filter (fun l => !(jsTrim l).isEmpty)
  if lines.length < 2 then [] else lines.drop 1

/-- `parseCSVMessages` (`src/slack_summary.js` lines 49–105): split the
payload into non-blank lines, drop the header line, and decode each
remaining line. -/
def parseCSVMessages (csvData : List Char) : List Message :=
  let lines := (splitNl csvData).filter (fun l => !(jsTrim l).isEmpty)
  if lines.length < 2 then [] else
    (lines.drop 1).filterMap lineToMessage

/-! ## Line-buffered stream reader (`src/slack_summary.js` lines 281–284)

`buffer += data; const lines = buffer.split("\n"); buffer = lines.pop()`:
every complete newline-terminated segment is emitted, the trailing
partial segment becomes the new carry buffer. -/

/-- One `feed` step of the line-buffered reader: append the chunk to the
carry buffer, split on line-feed, emit all complete segments, retain the
final segment. -/
def feed (buf chunk : List Char) : List (List Char) × List Char :=
  let parts := splitNl (buf ++ chunk)
  (parts.dropLast, (parts.getLast?).getD [])

/-- Feeding a sequence of chunks through the reader, collecting all
emitted lines and the final carry buffer. -/
def feedAll (buf : List Char) : List (List Char) → List (List Char) × List Char
  | [] => ([], buf)
  | chunk :: rest =>
    let step := feed buf chunk
    let next := feedAll step.2 rest
    (step.1 ++ next.1, next.2)

/-! ## Protocol session (`callMCPServer`, `src/slack_summary.js` lines 251–371) -/

/-- The shape of a successfully `JSON.parse`d stdout line, restricted to
the fields `callMCPServer` inspects: `jsonrpc`, `id`,
`result.protocolVersion`, `result.content[0].text`, `error.message`.
A missing field is `none`. -/
structure JsonContent where
  text : Option String
deriving Repr, DecidableEq

/-- The `result` object of a parsed line. -/
structure JsonResult where
  protocolVersion : Option String
  content : Option (List JsonContent)
deriving Repr, DecidableEq

/-- The `error` object of a parsed line. -/
structure JsonError where
  message : Option String
deriving Repr, DecidableEq

/-- A parsed stdout line. -/
structure JsonMsg where
  jsonrpc : Option String
  id : Option Int
  result : Option JsonResult
  error : Option JsonError
deriving Repr, DecidableEq

/-- JS truthiness of an optional string field: present and non-empty. -/
def truthyStr : Option String → Bool
  | some s => !(s == "")
  | none => false

/-- Truthiness of `json.result && json.result.protocolVersion`. -/
def truthyPV : Option JsonResult → Bool
  | some r => truthyStr r.protocolVersion
  | none => false

/-- The faults `callMCPServer` can reject with: the 30-second timeout
(line 274), a protocol-level `error` message (line 334), or a non-zero
child exit code (lines 351–355). -/
inductive Fault
  | timeout
  | protocolError (msg : String)
  | processExit (code : Int)
deriving Repr, DecidableEq

/-- The settlement state of the promise returned by `callMCPServer`. -/
inductive Status
  | pending
  | resolved (messages : List Message)
  | failed (fault : Fault)
deriving Repr, DecidableEq

/-- A promise settles at most once: `resolve`/`reject` after settlement
is a no-op. -/
def settle (old upd : Status) : Status :=
  match old with
  | .pending => upd
  | _ => old

/-- The mutable state of one `callMCPServer` session: the carry buffer,
the `initialized` and `requestSent` flags, the promise status, whether
`clearTimeout` has been called, and whether `mcp.kill()` has been
called. -/
structure SessionState where
  buffer : List Char
  initialized : Bool
  requestSent : Bool
  status : Status
  timeoutCleared : Bool
  killed : Bool
deriving Repr, DecidableEq

/-- Session state at spawn, after the `initialize` request was written. -/
def initialState : SessionState :=
  { buffer := [], initialized := false, requestSent := false
    status := .pending, timeoutCleared := false, killed := false }

/-- The payload handed to `resolve` on a correlated result (lines
319–329): `result.content[0].text` decoded by `parseCSVMessages` when
present and truthy, otherwise the empty list. -/
def resultPayload : Option JsonResult → List Message
  | some r =>
    match r.content with
    | some (c :: _) =>
      match c.text with
      | some t => if t == "" then [] else parseCSVMessages t.toList
      | none => []
    | _ => []
  | none => []

/-- `json.error.message || "Unknown error"` (line 334). -/
def errMessage : Option JsonError → String
  | some e =>
    match e.message with
    | some m => if m == "" then "Unknown error" else m
    | none => "Unknown error"
  | none => "Unknown error"

/-- Processing one complete stdout line (lines 286–340). Blank lines are
skipped; unparseable lines are skipped (the `catch`); a handshake
acknowledgment (`!initialized && json.jsonrpc && json.result &&
json.result.protocolVersion`) sets `initialized` and sends the method
call (the stdin write itself is an external effect); a message with
`id === 2` and a `result` clears the timer, resolves with the decoded
payload and kills the child; a message with an `error` field clears the
timer, rejects with its message and kills the child; everything else is
ignored. The parse function stands for `JSON.parse`. -/
def stepLine (parse : List Char → Option JsonMsg)
    (s : SessionState) (line : List Char) : SessionState :=
  if (jsTrim line).isEmpty then s
  else
    match parse line with
    | none => s
    | some j =>
      if !s.initialized && truthyStr j.jsonrpc && j.result.isSome && truthyPV j.result then
        { s with initialized := true, requestSent := true }
      else if j.id == some 2 && j.result.isSome then
        { s with timeoutCleared := true, killed := true
                 status := settle s.status (.resolved (resultPayload j.result)) }
      else if j.error.isSome then
        { s with timeoutCleared := true, killed := true
                 status := settle s.status (.failed (.protocolError (errMessage j.error))) }
      else s

/-- The stdout `data` handler (lines 281–341): append the chunk to the
carry buffer, keep the trailing partial line, and process every complete
line in order. -/
def stepChunk (parse : List Char → Option JsonMsg)
    (s : SessionState) (data : List Char) : SessionState :=
  let parts := splitNl (s.buffer ++ data)
  (parts.dropLast).foldl (stepLine parse) { s with buffer := (parts.getLast?).getD [] }

/-- The asynchronous events driving one session: a stdout chunk, the
`close` event with the child's exit code, and the deadline timer
firing. -/
inductive Event
  | data (chunk : List Char)
  | close (code : Int)
  | timerFire
deriving Repr, DecidableEq

/-- The 30-second deadline armed at spawn (line 275). -/
def timeoutMs : Nat := 30000

/-- Dispatch of one event: `close` always clears the timer and rejects
with an exit-code fault when the code is non-zero (lines 349–356); the
timer callback, which the runtime invokes only when the timer was not
cleared, kills the child and rejects with `Timeout` (lines 272–275). -/
def stepEvent (parse : List Char → Option JsonMsg)
    (s : SessionState) : Event → SessionState
  | .data chunk => stepChunk parse s chunk
  | .close code =>
    { s with timeoutCleared := true
             status := if code ≠ 0 then settle s.status (.failed (.processExit code))
                       else s.status }
  | .timerFire =>
    if s.timeoutCleared then s
    else { s with killed := true, status := settle s.status (.failed .timeout) }

/-- A whole session execution: fold the event trace from the spawn
state. -/
def processEvents (parse : List Char → Option JsonMsg)
    (events : List Event) : SessionState :=
  events.foldl (stepEvent parse) initialState

/-! ## Channel fetcher (`fetchChannelMessages`, lines 374–409) -/

/-- Digit run to a natural number. -/
def digitsToNat (ds : List Char) : Nat :=
  ds.foldl (fun n d => 10 * n + (d.toNat - 48)) 0

/-- Model of JS `parseFloat` on the nonnegative decimal literals used as
Slack timestamps: a leading digit run, optionally followed by `.` and a
fraction digit run, read as an exact rational; `none` stands for `NaN`
(no leading digit). Signs, exponents, leading whitespace and binary64
rounding are outside the shapes this program compares. -/
def jsParseFloat (s : String) : Option ℚ :=
  let cs := s.toList
  let intPart := cs.takeWhile Char.isDigit
  if intPart.isEmpty then none
  else
    match cs.dropWhile Char.isDigit with
    | '.' :: fracRest =>
      let frac := fracRest.takeWhile Char.isDigit
      some ((digitsToNat intPart : ℚ) + (digitsToNat frac : ℚ) / (10 ^ frac.length))
    | _ => some (digitsToNat intPart)

/-- The post-decode timeframe filter (lines 391–397): drop records with
an empty `Time`, parse the timestamp as seconds, and keep the record
only when `Time * 1000 ≥ nowMs − hoursAgo·3600000`. `NaN` comparisons
are false, so unparseable timestamps are dropped. -/
def fetchFilter (nowMs hoursAgo : ℚ) (messages : List Message) : List Message :=
  let oldestMs := nowMs - hoursAgo * 60 * 60 * 1000
  messages.filter (fun m =>
    if m.Time = "" then false
    else
      match jsParseFloat m.Time with
      | some ts => decide (ts * 1000 ≥ oldestMs)
      | none => false)

/-- `fetchChannelMessages` (lines 374–409), as a function of the awaited
protocol-session outcome: on success the decoded records are run through
the timeframe filter; the `catch` block downgrades every session fault
to an empty list. -/
def fetchChannelMessages (nowMs hoursAgo : ℚ)
    (outcome : Except Fault (List Message)) : List Message :=
  match outcome with
  | .ok messages => fetchFilter nowMs hoursAgo messages
  | .error _ => []

/-- A stdout line the post-handshake handler ignores: blank after
trimming, or unparseable, or parsed but neither an id-2 result nor
error-shaped. -/
def ignorableLine (parse : List Char → Option JsonMsg) (line : List Char) : Prop :=
  (jsTrim line).isEmpty = true
  ∨ ∀ j, parse line = some j →
      ¬(j.id = some 2 ∧ j.result.isSome = true) ∧ j.error = none

/-- A handshake-acknowledgment line as emitted by the child. -/
def hsAckLine : List Char :=
  "\x7b\"jsonrpc\":\"2.0\",\"id\":1,\"result\":\x7b\"protocolVersion\":\"0.1.0\"\x7d\x7d".toList

/-- An error-shaped line whose id 99 differs from the correlation id 2. -/
def strayErrorLine : List Char :=
  "\x7b\"jsonrpc\":\"2.0\",\"id\":99,\"error\":\x7b\"message\":\"boom\"\x7d\x7d".toList

/-- A correlated result line (id 2) carrying a one-line text payload. -/
def resultLine : List Char :=
  "\x7b\"jsonrpc\":\"2.0\",\"id\":2,\"result\":\x7b\"content\":[\x7b\"type\":\"text\",\"text\":\"x\"\x7d]\x7d\x7d".toList

/-- The parsed `result` object of `resultLine`. -/
def demoResult : JsonResult :=
  { protocolVersion := none, content := some [{ text := some "x" }] }

/-- The parsed form of `resultLine`. -/
def demoResultMsg : JsonMsg :=
  { jsonrpc := some "2.0", id := some 2, result := some demoResult, error := none }

/-- `JSON.parse` restricted to the three concrete lines of the examples:
everything else is unparseable. -/
def parseDemo (line : List Char) : Option JsonMsg :=
  if line = hsAckLine then
    some { jsonrpc := some "2.0", id := some 1
           result := some { protocolVersion := some "0.1.0", content := none }
           error := none }
  else if line = strayErrorLine then
    some { jsonrpc := some "2.0", id := some 99, result := none
           error := some { message := some "boom" } }
  else if line = resultLine then
    some demoResultMsg
  else none

/-- While the deadline timer is armed, the promise is still pending —
unless the timer itself already fired, which failed the session with
`Timeout` and killed the child. -/
def TimerInv (s : SessionState) : Prop :=
  s.timeoutCleared = false →
    s.status = .pending ∨ (s.status = .failed .timeout ∧ s.killed = true)

/-- The session has failed with `Timeout` and the child was killed. -/
def DoneInv (s : SessionState) : Prop :=
  s.status = .failed .timeout ∧ s.killed = true

theorem splitNl_ne_nil (l : List Char) : splitNl l ≠ [] := by
  induction l with
  | nil => simp [splitNl]
  | cons c cs ih =>
    by_cases h : c = '\n'
    · simp [splitNl, h]
    · cases hcs : splitNl cs with
      | nil => exact absurd hcs ih
      | cons a t => simp [splitNl, h, hcs]

theorem splitNl_eq_single {l : List Char} (h : '\n' ∉ l) : splitNl l = [l] := by
  induction l with
  | nil => rfl
  | cons c cs ih =>
    have hc : ¬(c = '\n') := by
      intro hc
      exact h (hc ▸ List.mem_cons_self c cs)
    have hcs : '\n' ∉ cs := fun hm => h (List.mem_cons_of_mem _ hm)
    simp [splitNl, hc, ih hcs]

theorem splitNl_carry_not_newline (z : List Char) :
    '\n' ∉ ((splitNl z).getLast?).getD [] := by
  induction z with
  | nil => simp [splitNl]
  | cons c cs ih =>
    by_cases h : c = '\n'
    · cases hcs : splitNl cs with
      | nil => exact absurd hcs (splitNl_ne_nil cs)
      | cons a t =>
        rw [hcs] at ih
        simp only [splitNl, h, if_pos, hcs]
        cases t with
        | nil => simpa using ih
        | cons b t' =>
          rw [List.getLast?_cons_cons]
          exact ih
    · cases hcs : splitNl cs with
      | nil => exact absurd hcs (splitNl_ne_nil cs)
      | cons a t =>
        rw [hcs] at ih
        simp only [splitNl, h, if_neg, ite_false, hcs, List.modifyHead_cons]
        cases t with
        | nil =>
          simp only [List.getLast?_singleton, Option.getD_some] at ih ⊢
          simp only [List.mem_cons, not_or] at ih ⊢
          exact ⟨fun he => h he.symm, ih⟩
        | cons b t' =>
          rw [List.getLast?_cons_cons] at ih ⊢
          exact ih

theorem splitNl_append (x y : List Char) :
    splitNl (x ++ y) =
      (splitNl x).dropLast ++ splitNl (((splitNl x).getLast?).getD [] ++ y) := by
  induction x with
  | nil => simp [splitNl]
  | cons c cs ih =>
    by_cases h : c = '\n'
    · cases hcs : splitNl cs with
      | nil => exact absurd hcs (splitNl_ne_nil cs)
      | cons a t =>
        rw [hcs] at ih
        simp only [List.cons_append, splitNl, h, if_pos, hcs]
        have e : ([] :: a :: t : List (List Char)) = [[]] ++ (a :: t) := rfl
        rw [e, List.dropLast_append_of_ne_nil _ (by simp),
          List.getLast?_append_of_ne_nil _ (by simp)]
        simpa using ih
    · cases hcs : splitNl cs with
      | nil => exact absurd hcs (splitNl_ne_nil cs)
      | cons a t =>
        rw [hcs] at ih
        have lhs : splitNl ((c :: cs) ++ y)
            = List.modifyHead (fun seg => c :: seg) (splitNl (cs ++ y)) := by
          simp [splitNl, h]
        have rhs0 : splitNl (c :: cs) = List.modifyHead (fun seg => c :: seg) (a :: t) := by
          simp [splitNl, h, hcs]
        cases t with
        | nil =>
          rw [lhs, ih, rhs0]
          simp [splitNl, h]
        | cons b t' =>
          rw [lhs, ih, rhs0]
          simp only [List.modifyHead_cons]
          rw [List.getLast?_cons_cons]
          have e1 : (a :: b :: t' : List (List Char)) = [a] ++ (b :: t') := rfl
          have e2 : ((c :: a) :: b :: t' : List (List Char)) = [c :: a] ++ (b :: t') := rfl
          rw [e1, e2, List.dropLast_append_of_ne_nil _ (by simp),
            List.dropLast_append_of_ne_nil _ (by simp)]
          simp

theorem feed_feedAll (chunks : List (List Char)) :
    ∀ buf, '\n' ∉ buf → feedAll buf chunks = feed buf chunks.flatten := by
  induction chunks with
  | nil =>
    intro buf hbuf
    simp [feedAll, feed, splitNl_eq_single hbuf]
  | cons c cs ih =>
    intro buf hbuf
    have hcarry := splitNl_carry_not_newline (buf ++ c)
    have hQ := splitNl_ne_nil ((((splitNl (buf ++ c)).getLast?).getD []) ++ cs.flatten)
    simp only [feedAll, feed, List.flatten_cons, ih _ hcarry]
    rw [← List.append_assoc, splitNl_append (buf ++ c) cs.flatten,
      List.dropLast_append_of_ne_nil _ hQ, List.getLast?_append_of_ne_nil _ hQ]

/-- C4: feeding any two chunk decompositions of the same byte stream
through the carry-buffer split logic of the stdout handler yields the
same emitted complete lines and the same trailing carry buffer. -/
theorem c4_splitting_invariance (chunks₁ chunks₂ : List (List Char))
    (h : chunks₁.flatten = chunks₂.flatten) :
    feedAll [] chunks₁ = feedAll [] chunks₂ := by
  rw [feed_feedAll chunks₁ [] (by simp), feed_feedAll chunks₂ [] (by simp), h]

/-- C4 witness: two different chunkings of `"ab\ncd\ne"`. -/
theorem c4_splitting_invariance_witness :
    (["ab\nc".toList, "d\ne".toList] : List (List Char)).flatten
        = (["ab".toList, "\ncd\n".toList, "e".toList] : List (List Char)).flatten
      ∧ feedAll [] ["ab\nc".toList, "d\ne".toList]
        = feedAll [] ["ab".toList, "\ncd\n".toList, "e".toList] :=
  ⟨by decide, c4_splitting_invariance _ _ (by decide)⟩

theorem parseCSV_eq_filterMap (csv : List Char) :
    parseCSVMessages csv = (dataLines csv).filterMap lineToMessage := by
  simp only [parseCSVMessages, dataLines]
  split <;> simp

theorem parseLineAux_inQuotes (mid : List Char) :
    ∀ (p : Option Char) (cur : List Char) (acc : List (List Char)) (rest : List Char),
      '"' ∉ mid →
      parseLineAux p true cur acc (mid ++ rest)
        = parseLineAux ((mid.getLast?).or p) true (cur ++ mid) acc rest := by
  induction mid with
  | nil => intro p cur acc rest _; simp [Option.or]
  | cons m ms ih =>
    intro p cur acc rest h
    have hm : ¬(m = '"') := by
      intro hq
      exact h (hq ▸ List.mem_cons_self m ms)
    have hms : '"' ∉ ms := fun hmem => h (List.mem_cons_of_mem _ hmem)
    have step : parseLineAux p true cur acc ((m :: ms) ++ rest)
        = parseLineAux (some m) true (cur ++ [m]) acc (ms ++ rest) := by
      simp only [List.cons_append, List.append_eq, parseLineAux]
      rw [if_neg (fun hcon => hm hcon.1),
        if_neg (fun hcon => hm hcon.1),
        if_neg (fun hcon => absurd hcon.2 (by decide))]
    rw [step, ih (some m) (cur ++ [m]) acc rest hms]
    have hcur : cur ++ [m] ++ ms = cur ++ m :: ms := by simp
    have hprev : (ms.getLast?).or (some m) = ((m :: ms).getLast?).or p := by
      cases ms with
      | nil => simp [Option.or]
      | cons b t =>
        rw [List.getLast?_cons_cons]
        cases hl : (b :: t).getLast? with
        | none =>
          exact absurd (List.getLast?_eq_none_iff.mp hl) (by simp)
        | some l => simp [Option.or]
    rw [hcur, hprev]

/-- One evaluation step of the field splitter: end of line pushes the
current field. -/
theorem parseLineAux_nil (p : Option Char) (q : Bool) (cur : List Char)
    (acc : List (List Char)) : parseLineAux p q cur acc [] = acc ++ [cur] := by
  rw [parseLineAux.eq_1]

/-- One evaluation step of the field splitter: a double-quote at a field
start (previous character absent or a comma) turns quoting on and is
dropped. -/
theorem parseLineAux_open (p : Option Char) (q : Bool) (cur : List Char)
    (acc : List (List Char)) (rest : List Char) (hp : p = none ∨ p = some ',') :
    parseLineAux p q cur acc ('"' :: rest) = parseLineAux (some '"') true cur acc rest := by
  rw [parseLineAux.eq_2, if_pos ⟨rfl, hp⟩]

/-- One evaluation step of the field splitter: a double-quote inside
quotes, not after a comma, and followed by a comma or end-of-line turns
quoting off and is dropped. -/
theorem parseLineAux_close (p : Option Char) (cur : List Char)
    (acc : List (List Char)) (rest : List Char)
    (hp : ¬(p = none ∨ p = some ',')) (hr : rest.head? = none ∨ rest.head? = some ',') :
    parseLineAux p true cur acc ('"' :: rest) = parseLineAux (some '"') false cur acc rest := by
  rw [parseLineAux.eq_2, if_neg (fun hcon => hp hcon.2), if_pos ⟨rfl, rfl, hr⟩]

/-- One evaluation step of the field splitter: an unquoted comma pushes
the current field. -/
theorem parseLineAux_comma (p : Option Char) (cur : List Char)
    (acc : List (List Char)) (rest : List Char) :
    parseLineAux p false cur acc (',' :: rest)
      = parseLineAux (some ',') false [] (acc ++ [cur]) rest := by
  rw [parseLineAux.eq_2, if_neg (fun hcon => absurd hcon.1 (by decide)),
    if_neg (fun hcon => absurd hcon.1 (by decide)), if_pos ⟨rfl, rfl⟩]

/-- C5 (amended): a field that starts with a double-quote at a field
start (line start or just after a comma) and ends with a double-quote
immediately before a comma or end-of-line keeps its inner commas
literally and loses the enclosing quotes — provided the quoted content
contains no double-quote and does not end with a comma. In particular
the payload line `U2,bob,Bob,C1,,"hi, there",170000.2,` decodes with
`Text = "hi, there"`. -/
theorem c5_quoting :
    (∀ (p : Option Char) (acc : List (List Char)) (mid rest : List Char),
        p = none ∨ p = some ',' → '"' ∉ mid → mid.getLast? ≠ some ',' →
        parseLineAux p false [] acc ('"' :: (mid ++ '"' :: ',' :: rest))
            = parseLineAux (some ',') false [] (acc ++ [mid]) rest
          ∧ parseLineAux p false [] acc ('"' :: (mid ++ ['"']))
            = acc ++ [mid])
    ∧ parseCSVMessages
        ("UserID,UserName,RealName,Channel,ThreadTs,Text,Time,Cursor\nU2,bob,Bob,C1,,\"hi, there\",170000.2,".toList)
        = [{ UserID := "U2", UserName := "bob", RealName := "Bob", Channel := "C1",
             ThreadTs := "", Text := "hi, there", Time := "170000.2", Cursor := "" }] := by
  constructor
  · intro p acc mid rest hp hq hlast
    have hprev1 : ((mid.getLast?).or (some '"')) ≠ none := by
      cases hm : mid.getLast? <;> simp [Option.or]
    have hprev2 : ((mid.getLast?).or (some '"')) ≠ some ',' := by
      cases hm : mid.getLast? with
      | none => simp [Option.or]
      | some l =>
        simp only [Option.or]
        intro hcon
        rw [hcon] at hm
        exact hlast hm
    have hprevne : ¬(((mid.getLast?).or (some '"')) = none
        ∨ ((mid.getLast?).or (some '"')) = some ',') :=
      fun hcon => hcon.elim (fun h1 => hprev1 h1) (fun h2 => hprev2 h2)
    have open1 : ∀ tail : List Char,
        parseLineAux p false [] acc ('"' :: (mid ++ tail))
          = parseLineAux ((mid.getLast?).or (some '"')) true mid acc tail := by
      intro tail
      rw [parseLineAux_open p false [] acc (mid ++ tail) hp,
        parseLineAux_inQuotes mid (some '"') [] acc tail hq, List.nil_append]
    constructor
    · rw [open1 ('"' :: ',' :: rest),
        parseLineAux_close _ mid acc (',' :: rest) hprevne (Or.inr rfl),
        parseLineAux_comma _ mid acc rest]
    · rw [open1 ['"'],
        parseLineAux_close _ mid acc [] hprevne (Or.inl rfl),
        parseLineAux_nil]
  · decide

/-- C5 counterexample: in the data line
`U9,bob,Bob,C1,,"hi,",170000.3,c` the sixth field starts with a
double-quote right after a comma and ends with a double-quote
immediately before a comma, so by the claim it should decode to the
field value `hi,`. Instead the closing quote is re-read as an opening
quote (its predecessor is a comma), the rest of the line is swallowed
into one field of value `hi,,170000.3,c`, the line splits into only 6
fields, and the record is dropped entirely. -/
theorem c5_quoting_counterexample :
    (parseLine ("U9,bob,Bob,C1,,\"hi,\",170000.3,c".toList)).map (fun cs => String.mk cs)
        = ["U9", "bob", "Bob", "C1", "", "hi,,170000.3,c"]
    ∧ parseCSVMessages
        ("UserID,UserName,RealName,Channel,ThreadTs,Text,Time,Cursor\nU9,bob,Bob,C1,,\"hi,\",170000.3,c".toList)
        = [] := by
  decide

/-- C5 witness: the general quoting statement applied to the field
`"hi, there"` occurring after the fields `U2,...` of the example line. -/
theorem c5_quoting_witness :
    ('"' ∉ "hi, there".toList)
    ∧ ("hi, there".toList).getLast? ≠ some ','
    ∧ (parseLineAux (some ',') false [] ["U2".toList]
          ('"' :: ("hi, there".toList ++ '"' :: ',' :: "170000.2,".toList))
          = parseLineAux (some ',') false [] (["U2".toList] ++ ["hi, there".toList])
              ("170000.2,".toList)
        ∧ parseLineAux (some ',') false [] ["U2".toList]
            ('"' :: ("hi, there".toList ++ ['"']))
          = ["U2".toList] ++ ["hi, there".toList]) :=
  ⟨by decide, by decide,
    c5_quoting.1 (some ',') ["U2".toList] "hi, there".toList "170000.2,".toList
      (Or.inr rfl) (by decide) (by decide)⟩

/-- C6 counterexample: with header `ID,a,b,c,d,e,f`, the data line
`ID,a,b,c,d,e,f` — whose first decoded field equals the header's first
column name `ID` — is NOT discarded: the skip check compares against the
literal string `"UserID"`, not the header's first column. -/
theorem c6_header_skip_counterexample :
    ((parseLine ("ID,a,b,c,d,e,f".toList)).map (fun cs => String.mk cs)).getD 0 "" = "ID"
    ∧ parseCSVMessages ("ID,a,b,c,d,e,f\nID,a,b,c,d,e,f".toList)
        = [{ UserID := "ID", UserName := "a", RealName := "b", Channel := "c",
             ThreadTs := "d", Text := "e", Time := "f", Cursor := "" }] := by
  decide

/-- C6 (amended): a data line is treated as a duplicate header and
discarded exactly when its first decoded field equals the literal
string `"UserID"` (the usual header's first column name), regardless of
the actual header line; consequently no decoded record has
`UserID = "UserID"`. -/
theorem c6_header_skip :
    (∀ line : List Char,
        ((parseLine line).map (fun cs => String.mk cs)).getD 0 "" = "UserID" →
        lineToMessage line = none)
    ∧ ∀ (csv : List Char) (m : Message), m ∈ parseCSVMessages csv → m.UserID ≠ "UserID" := by
  constructor
  · intro line h0
    simp only [lineToMessage]
    split
    · rw [if_neg]
      intro hcon
      exact hcon.2 h0
    · rfl
  · intro csv m hm
    rw [parseCSV_eq_filterMap] at hm
    obtain ⟨line, _, hline⟩ := List.mem_filterMap.mp hm
    simp only [lineToMessage] at hline
    split at hline
    · split at hline
      · rename_i hguard
        cases hline
        exact hguard.2
      · cases hline
    · cases hline

/-- C6 witness: on a payload with the standard header, the only decoded
record has `UserID = "U1" ≠ "UserID"`. -/
theorem c6_header_skip_witness :
    ({ UserID := "U1", UserName := "a", RealName := "b", Channel := "c",
       ThreadTs := "d", Text := "e", Time := "f", Cursor := "" } : Message)
      ∈ parseCSVMessages
          ("UserID,UserName,RealName,Channel,ThreadTs,Text,Time,Cursor\nU1,a,b,c,d,e,f".toList)
    ∧ ({ UserID := "U1", UserName := "a", RealName := "b", Channel := "c",
         ThreadTs := "d", Text := "e", Time := "f", Cursor := "" } : Message).UserID ≠ "UserID" :=
  ⟨by decide,
    c6_header_skip.2
      ("UserID,UserName,RealName,Channel,ThreadTs,Text,Time,Cursor\nU1,a,b,c,d,e,f".toList)
      { UserID := "U1", UserName := "a", RealName := "b", Channel := "c",
        ThreadTs := "d", Text := "e", Time := "f", Cursor := "" }
      (by decide)⟩

/-- C7: a data line splitting into fewer than 7 fields is dropped, and
every record the decoder emits stems from a post-header line with at
least 7 fields, its fields mapped positionally
(0 = UserID, 1 = UserName, 2 = RealName, 3 = Channel, 4 = ThreadTs,
5 = Text, 6 = Time, 7 = Cursor, defaulting to the empty string). -/
theorem c7_min_field_threshold :
    (∀ line : List Char, (parseLine line).length < 7 → lineToMessage line = none)
    ∧ ∀ (csv : List Char) (m : Message), m ∈ parseCSVMessages csv →
        ∃ line ∈ dataLines csv,
          7 ≤ (parseLine line).length
          ∧ m.UserID = ((parseLine line).map (fun cs => String.mk cs)).getD 0 ""
          ∧ m.UserName = ((parseLine line).map (fun cs => String.mk cs)).getD 1 ""
          ∧ m.RealName = ((parseLine line).map (fun cs => String.mk cs)).getD 2 ""
          ∧ m.Channel = ((parseLine line).map (fun cs => String.mk cs)).getD 3 ""
          ∧ m.ThreadTs = ((parseLine line).map (fun cs => String.mk cs)).getD 4 ""
          ∧ m.Text = ((parseLine line).map (fun cs => String.mk cs)).getD 5 ""
          ∧ m.Time = ((parseLine line).map (fun cs => String.mk cs)).getD 6 ""
          ∧ m.Cursor = ((parseLine line).map (fun cs => String.mk cs)).getD 7 "" := by
  constructor
  · intro line hlen
    simp only [lineToMessage]
    rw [if_neg]
    intro hcon
    rw [List.length_map] at hcon
    omega
  · intro csv m hm
    rw [parseCSV_eq_filterMap] at hm
    obtain ⟨line, hmem, hline⟩ := List.mem_filterMap.mp hm
    refine ⟨line, hmem, ?_⟩
    simp only [lineToMessage] at hline
    split at hline
    · split at hline
      · rename_i hlen _
        cases hline
        rw [List.length_map] at hlen
        exact ⟨hlen, rfl, rfl, rfl, rfl, rfl, rfl, rfl, rfl⟩
      · cases hline
    · cases hline

/-- C7 witness: a 5-field line is dropped; the record decoded from the
example payload carries the positionally mapped fields of its line. -/
theorem c7_min_field_threshold_witness :
    ((parseLine ("a,b,c,d,e".toList)).length < 7
      ∧ lineToMessage ("a,b,c,d,e".toList) = none)
    ∧ (({ UserID := "U1", UserName := "a", RealName := "b", Channel := "c",
          ThreadTs := "d", Text := "e", Time := "f", Cursor := "" } : Message)
        ∈ parseCSVMessages
            ("UserID,UserName,RealName,Channel,ThreadTs,Text,Time,Cursor\nU1,a,b,c,d,e,f".toList)
      ∧ ∃ line ∈ dataLines
            ("UserID,UserName,RealName,Channel,ThreadTs,Text,Time,Cursor\nU1,a,b,c,d,e,f".toList),
          7 ≤ (parseLine line).length
          ∧ ({ UserID := "U1", UserName := "a", RealName := "b", Channel := "c",
               ThreadTs := "d", Text := "e", Time := "f", Cursor := "" } : Message).UserID
              = ((parseLine line).map (fun cs => String.mk cs)).getD 0 ""
          ∧ ({ UserID := "U1", UserName := "a", RealName := "b", Channel := "c",
               ThreadTs := "d", Text := "e", Time := "f", Cursor := "" } : Message).UserName
              = ((parseLine line).map (fun cs => String.mk cs)).getD 1 ""
          ∧ ({ UserID := "U1", UserName := "a", RealName := "b", Channel := "c",
               ThreadTs := "d", Text := "e", Time := "f", Cursor := "" } : Message).RealName
              = ((parseLine line).map (fun cs => String.mk cs)).getD 2 ""
          ∧ ({ UserID := "U1", UserName := "a", RealName := "b", Channel := "c",
               ThreadTs := "d", Text := "e", Time := "f", Cursor := "" } : Message).Channel
              = ((parseLine line).map (fun cs => String.mk cs)).getD 3 ""
          ∧ ({ UserID := "U1", UserName := "a", RealName := "b", Channel := "c",
               ThreadTs := "d", Text := "e", Time := "f", Cursor := "" } : Message).ThreadTs
              = ((parseLine line).map (fun cs => String.mk cs)).getD 4 ""
          ∧ ({ UserID := "U1", UserName := "a", RealName := "b", Channel := "c",
               ThreadTs := "d", Text := "e", Time := "f", Cursor := "" } : Message).Text
              = ((parseLine line).map (fun cs => String.mk cs)).getD 5 ""
          ∧ ({ UserID := "U1", UserName := "a", RealName := "b", Channel := "c",
               ThreadTs := "d", Text := "e", Time := "f", Cursor := "" } : Message).Time
              = ((parseLine line).map (fun cs => String.mk cs)).getD 6 ""
          ∧ ({ UserID := "U1", UserName := "a", RealName := "b", Channel := "c",
               ThreadTs := "d", Text := "e", Time := "f", Cursor := "" } : Message).Cursor
              = ((parseLine line).map (fun cs => String.mk cs)).getD 7 "") :=
  ⟨⟨by decide, c7_min_field_threshold.1 ("a,b,c,d,e".toList) (by decide)⟩,
    by decide,
    c7_min_field_threshold.2
      ("UserID,UserName,RealName,Channel,ThreadTs,Text,Time,Cursor\nU1,a,b,c,d,e,f".toList)
      { UserID := "U1", UserName := "a", RealName := "b", Channel := "c",
        ThreadTs := "d", Text := "e", Time := "f", Cursor := "" }
      (by decide)⟩

/-- C9: a data line whose first field is empty is dropped even with 7 or
more fields, so every decoded record has a non-empty `UserID`. -/
theorem c9_nonempty_userid :
    (∀ line : List Char,
        ((parseLine line).map (fun cs => String.mk cs)).getD 0 "" = "" →
        lineToMessage line = none)
    ∧ ∀ (csv : List Char) (m : Message), m ∈ parseCSVMessages csv → m.UserID ≠ "" := by
  constructor
  · intro line h0
    simp only [lineToMessage]
    split
    · rw [if_neg]
      intro hcon
      exact hcon.1 h0
    · rfl
  · intro csv m hm
    rw [parseCSV_eq_filterMap] at hm
    obtain ⟨line, _, hline⟩ := List.mem_filterMap.mp hm
    simp only [lineToMessage] at hline
    split at hline
    · split at hline
      · rename_i hguard
        cases hline
        exact hguard.1
      · cases hline
    · cases hline

/-- C9 witness: the line `,a,b,c,d,e,f` has 7 fields but an empty first
field and is dropped; the record decoded from `U1,...` has a non-empty
`UserID`. -/
theorem c9_nonempty_userid_witness :
    (((parseLine (",a,b,c,d,e,f".toList)).map (fun cs => String.mk cs)).getD 0 "" = ""
      ∧ 7 ≤ (parseLine (",a,b,c,d,e,f".toList)).length
      ∧ lineToMessage (",a,b,c,d,e,f".toList) = none)
    ∧ (({ UserID := "U1", UserName := "a", RealName := "b", Channel := "c",
          ThreadTs := "d", Text := "e", Time := "f", Cursor := "" } : Message)
        ∈ parseCSVMessages
            ("UserID,UserName,RealName,Channel,ThreadTs,Text,Time,Cursor\nU1,a,b,c,d,e,f".toList)
      ∧ ({ UserID := "U1", UserName := "a", RealName := "b", Channel := "c",
           ThreadTs := "d", Text := "e", Time := "f", Cursor := "" } : Message).UserID ≠ "") :=
  ⟨⟨by decide, by decide, c9_nonempty_userid.1 (",a,b,c,d,e,f".toList) (by decide)⟩,
    by decide,
    c9_nonempty_userid.2
      ("UserID,UserName,RealName,Channel,ThreadTs,Text,Time,Cursor\nU1,a,b,c,d,e,f".toList)
      { UserID := "U1", UserName := "a", RealName := "b", Channel := "c",
        ThreadTs := "d", Text := "e", Time := "f", Cursor := "" }
      (by decide)⟩

/-- C3: the channel fetcher downgrades every protocol-session failure
(timeout, protocol error, process exit) to an empty record list, so no
channel's failure can abort the batch; as a total function it cannot
raise. -/
theorem c3_failure_downgrade (nowMs hoursAgo : ℚ) (fault : Fault) :
    fetchChannelMessages nowMs hoursAgo (Except.error fault) = [] := rfl

/-- `jsParseFloat` on the literal `"1"`. -/
theorem jsParseFloat_one : jsParseFloat "1" = some 1 := by
  have h1 : "1".toList = ['1'] := by decide
  have h2 : (['1'] : List Char).takeWhile Char.isDigit = ['1'] := by decide
  have h3 : (['1'] : List Char).dropWhile Char.isDigit = [] := by decide
  have h4 : digitsToNat ['1'] = 1 := by decide
  simp [jsParseFloat, h1, h2, h3, h4]

/-- The sample record with `Time = "1"` survives the timeframe filter of
a fetch with `nowMs = 0` and a one-hour window. -/
theorem sample_fetch_mem :
    (⟨"U1", "a", "b", "c", "d", "e", "1", ""⟩ : Message)
      ∈ fetchChannelMessages 0 1
          (Except.ok [⟨"U1", "a", "b", "c", "d", "e", "1", ""⟩]) := by
  simp only [fetchChannelMessages, fetchFilter]
  refine List.mem_filter.mpr ⟨List.mem_singleton_self _, ?_⟩
  dsimp only
  rw [if_neg (by decide), jsParseFloat_one]
  exact decide_eq_true (by norm_num)

/-- C8: every record returned by a successful fetch has a parseable
timestamp no older than the computed lower bound
`nowMs − hoursAgo·3600000` (compared in milliseconds, as the code does:
`Time · 1000 ≥ oldestMs`). -/
theorem c8_window_post_filter (nowMs hoursAgo : ℚ) (msgs : List Message) (m : Message)
    (hm : m ∈ fetchChannelMessages nowMs hoursAgo (Except.ok msgs)) :
    ∃ ts : ℚ, jsParseFloat m.Time = some ts
      ∧ ts * 1000 ≥ nowMs - hoursAgo * 60 * 60 * 1000 := by
  simp only [fetchChannelMessages, fetchFilter] at hm
  obtain ⟨-, hp⟩ := List.mem_filter.mp hm
  by_cases h0 : m.Time = ""
  · rw [if_pos h0] at hp
    cases hp
  · rw [if_neg h0] at hp
    cases hj : jsParseFloat m.Time with
    | none => rw [hj] at hp; cases hp
    | some ts =>
      rw [hj] at hp
      exact ⟨ts, rfl, of_decide_eq_true hp⟩

/-- C8 witness: with `nowMs = 0` and a one-hour window, the record with
`Time = "1"` passes the filter and satisfies the bound. -/
theorem c8_window_post_filter_witness :
    (⟨"U1", "a", "b", "c", "d", "e", "1", ""⟩ : Message)
      ∈ fetchChannelMessages 0 1
          (Except.ok [⟨"U1", "a", "b", "c", "d", "e", "1", ""⟩])
    ∧ ∃ ts : ℚ,
        jsParseFloat (⟨"U1", "a", "b", "c", "d", "e", "1", ""⟩ : Message).Time = some ts
          ∧ ts * 1000 ≥ 0 - 1 * 60 * 60 * 1000 :=
  ⟨sample_fetch_mem,
    c8_window_post_filter 0 1 [⟨"U1", "a", "b", "c", "d", "e", "1", ""⟩]
      ⟨"U1", "a", "b", "c", "d", "e", "1", ""⟩ sample_fetch_mem⟩

/-- C10: the fetch post-filter drops records with an empty `Time`, so
every record returned by the channel fetcher has a non-empty timestamp
string. -/
theorem c10_nonempty_time (nowMs hoursAgo : ℚ) (outcome : Except Fault (List Message))
    (m : Message) (hm : m ∈ fetchChannelMessages nowMs hoursAgo outcome) :
    m.Time ≠ "" := by
  cases outcome with
  | error fault => simp [fetchChannelMessages] at hm
  | ok msgs =>
    simp only [fetchChannelMessages, fetchFilter] at hm
    obtain ⟨-, hp⟩ := List.mem_filter.mp hm
    by_cases h0 : m.Time = ""
    · rw [if_pos h0] at hp
      cases hp
    · exact h0

/-- C10 witness: the kept record of the C8 scenario has a non-empty
`Time`. -/
theorem c10_nonempty_time_witness :
    (⟨"U1", "a", "b", "c", "d", "e", "1", ""⟩ : Message)
      ∈ fetchChannelMessages 0 1
          (Except.ok [⟨"U1", "a", "b", "c", "d", "e", "1", ""⟩])
    ∧ (⟨"U1", "a", "b", "c", "d", "e", "1", ""⟩ : Message).Time ≠ "" :=
  ⟨sample_fetch_mem,
    c10_nonempty_time 0 1 (Except.ok [⟨"U1", "a", "b", "c", "d", "e", "1", ""⟩])
      ⟨"U1", "a", "b", "c", "d", "e", "1", ""⟩ sample_fetch_mem⟩

theorem stepLine_ignored (parse : List Char → Option JsonMsg) (s : SessionState)
    (line : List Char) (hinit : s.initialized = true)
    (hig : ignorableLine parse line) :
    stepLine parse s line = s := by
  unfold stepLine
  by_cases hb : (jsTrim line).isEmpty = true
  · rw [if_pos hb]
  · rw [if_neg hb]
    cases hparse : parse line with
    | none => rfl
    | some j =>
      have hj := (Or.resolve_left hig hb) j hparse
      have c1 : (!s.initialized && truthyStr j.jsonrpc && j.result.isSome
          && truthyPV j.result) = false := by
        rw [hinit]
        simp
      have c2 : (j.id == some 2 && j.result.isSome) = false := by
        cases hid : j.id == some 2 with
        | false => simp
        | true =>
          cases hres : j.result.isSome with
          | false => simp
          | true => exact absurd ⟨eq_of_beq hid, hres⟩ hj.1
      have c3 : j.error.isSome = false := by
        rw [hj.2]
        rfl
      simp [c1, c2, c3]

theorem foldl_ignored (parse : List Char → Option JsonMsg) (s : SessionState)
    (lines : List (List Char)) (hinit : s.initialized = true)
    (hig : ∀ l ∈ lines, ignorableLine parse l) :
    lines.foldl (stepLine parse) s = s := by
  induction lines with
  | nil => rfl
  | cons l ls ih =>
    rw [List.foldl_cons, stepLine_ignored parse s l hinit (hig l (by simp))]
    exact ih (fun x hx => hig x (by simp [hx]))

/-- C1 (amended): after the handshake, a parsed line with `id = 2` and a
`result` resolves the pending request with the decoded payload; a parsed
line that is neither such a result nor error-shaped is ignored without
any state change, and a later correctly-correlated result still resolves
the request; but a parsed line carrying an `error` field fails the
pending request regardless of its correlation id. -/
theorem c1_response_routing :
    (∀ (parse : List Char → Option JsonMsg) (s : SessionState)
        (lines : List (List Char)) (resLine : List Char) (j : JsonMsg) (r : JsonResult),
        s.initialized = true → s.status = .pending →
        (∀ l ∈ lines, ignorableLine parse l) →
        (jsTrim resLine).isEmpty = false → parse resLine = some j →
        j.id = some 2 → j.result = some r →
        lines.foldl (stepLine parse) s = s
          ∧ (stepLine parse (lines.foldl (stepLine parse) s) resLine).status
              = .resolved (resultPayload (some r)))
    ∧ ∀ (parse : List Char → Option JsonMsg) (s : SessionState)
        (line : List Char) (je : JsonMsg),
        s.initialized = true → s.status = .pending →
        (jsTrim line).isEmpty = false → parse line = some je →
        je.error.isSome = true → ¬(je.id = some 2 ∧ je.result.isSome = true) →
        (stepLine parse s line).status
          = .failed (.protocolError (errMessage je.error)) := by
  constructor
  · intro parse s lines resLine j r hinit hpend hig hb hparse hid hres
    have hfold : lines.foldl (stepLine parse) s = s := foldl_ignored parse s lines hinit hig
    refine ⟨hfold, ?_⟩
    rw [hfold]
    unfold stepLine
    rw [if_neg (by rw [hb]; exact Bool.false_ne_true)]
    simp only [hparse]
    have c1 : (!s.initialized && truthyStr j.jsonrpc && j.result.isSome
        && truthyPV j.result) = false := by
      rw [hinit]
      simp
    have c2 : (j.id == some 2 && j.result.isSome) = true := by
      rw [hid, hres]
      rfl
    rw [c1]
    simp only [Bool.false_eq_true, if_false, c2, if_true]
    rw [hpend, hres]
    rfl
  · intro parse s line je hinit hpend hb hparse herr hni
    unfold stepLine
    rw [if_neg (by rw [hb]; exact Bool.false_ne_true)]
    simp only [hparse]
    have c1 : (!s.initialized && truthyStr je.jsonrpc && je.result.isSome
        && truthyPV je.result) = false := by
      rw [hinit]
      simp
    have c2 : (je.id == some 2 && je.result.isSome) = false := by
      cases hid : je.id == some 2 with
      | false => simp
      | true =>
        cases hres : je.result.isSome with
        | false => simp
        | true => exact absurd ⟨eq_of_beq hid, hres⟩ hni
    rw [c1]
    simp only [Bool.false_eq_true, if_false, c2]
    rw [herr, hpend]
    rfl

/-- C1 counterexample: drive a session through a real handshake, then
deliver an error-shaped line whose id 99 does not match the session's
correlation id 2. The claim says such a line is ignored without state
change; instead the handler fails the pending request with the carried
message (and a later correlated result can no longer resolve it). -/
theorem c1_response_routing_counterexample :
    (processEvents parseDemo [Event.data (hsAckLine ++ ['\n'])]).initialized = true
    ∧ (processEvents parseDemo [Event.data (hsAckLine ++ ['\n'])]).status = Status.pending
    ∧ (parseDemo strayErrorLine).map JsonMsg.id = some (some 99)
    ∧ (processEvents parseDemo
          [Event.data (hsAckLine ++ ['\n']), Event.data (strayErrorLine ++ ['\n'])]).status
        = Status.failed (Fault.protocolError "boom") := by
  decide

/-- C1 witness: from the post-handshake state, an unparseable noise line
leaves the state unchanged and the correlated id-2 result line then
resolves the request with the decoded payload. -/
theorem c1_response_routing_witness :
    (processEvents parseDemo [Event.data (hsAckLine ++ ['\n'])]).initialized = true
    ∧ (processEvents parseDemo [Event.data (hsAckLine ++ ['\n'])]).status = Status.pending
    ∧ (∀ l ∈ (["noise".toList] : List (List Char)), ignorableLine parseDemo l)
    ∧ (jsTrim resultLine).isEmpty = false
    ∧ parseDemo resultLine = some demoResultMsg
    ∧ demoResultMsg.id = some 2
    ∧ demoResultMsg.result = some demoResult
    ∧ (["noise".toList].foldl (stepLine parseDemo)
          (processEvents parseDemo [Event.data (hsAckLine ++ ['\n'])])
        = processEvents parseDemo [Event.data (hsAckLine ++ ['\n'])]
      ∧ (stepLine parseDemo
            (["noise".toList].foldl (stepLine parseDemo)
              (processEvents parseDemo [Event.data (hsAckLine ++ ['\n'])]))
            resultLine).status
          = Status.resolved (resultPayload (some demoResult))) := by
  have hnone : parseDemo ("noise".toList) = none := by decide
  have hig : ∀ l ∈ (["noise".toList] : List (List Char)), ignorableLine parseDemo l := by
    intro l hl
    have hl' : l = "noise".toList := by simpa using hl
    subst hl'
    exact Or.inr (fun j hj => absurd (hnone ▸ hj) (by simp))
  exact ⟨by decide, by decide, hig, by decide, by decide, by decide, by decide,
    c1_response_routing.1 parseDemo
      (processEvents parseDemo [Event.data (hsAckLine ++ ['\n'])])
      ["noise".toList] resultLine demoResultMsg demoResult
      (by decide) (by decide) hig (by decide) (by decide) (by decide) (by decide)⟩

theorem timerInv_stepLine (parse : List Char → Option JsonMsg) (s : SessionState)
    (line : List Char) (h : TimerInv s) : TimerInv (stepLine parse s line) := by
  unfold stepLine
  by_cases hb : (jsTrim line).isEmpty = true
  · rw [if_pos hb]
    exact h
  · rw [if_neg hb]
    cases hp : parse line with
    | none => exact h
    | some j =>
      dsimp only
      by_cases c1 : (!s.initialized && truthyStr j.jsonrpc && j.result.isSome
          && truthyPV j.result) = true
      · rw [if_pos c1]
        intro hc
        exact h hc
      · rw [if_neg c1]
        by_cases c2 : (j.id == some 2 && j.result.isSome) = true
        · rw [if_pos c2]
          intro hc
          exact Bool.noConfusion hc
        · rw [if_neg c2]
          by_cases c3 : j.error.isSome = true
          · rw [if_pos c3]
            intro hc
            exact Bool.noConfusion hc
          · rw [if_neg c3]
            exact h

theorem timerInv_fold (parse : List Char → Option JsonMsg) :
    ∀ (lines : List (List Char)) (s : SessionState),
      TimerInv s → TimerInv (lines.foldl (stepLine parse) s) := by
  intro lines
  induction lines with
  | nil => intro s h; exact h
  | cons l ls ih =>
    intro s h
    exact ih _ (timerInv_stepLine parse s l h)

theorem timerInv_stepEvent (parse : List Char → Option JsonMsg) (s : SessionState)
    (e : Event) (h : TimerInv s) : TimerInv (stepEvent parse s e) := by
  cases e with
  | data chunk =>
    exact timerInv_fold parse _ _ (fun hc => h hc)
  | close code =>
    intro hc
    exact Bool.noConfusion hc
  | timerFire =>
    simp only [stepEvent]
    cases hcl : s.timeoutCleared with
    | true => simpa using h
    | false =>
      rw [if_neg Bool.false_ne_true]
      intro _
      rcases h hcl with hpend | hdone
      · right
        rw [hpend]
        exact ⟨rfl, rfl⟩
      · right
        rw [hdone.1]
        exact ⟨rfl, rfl⟩

theorem timerInv_processEvents (parse : List Char → Option JsonMsg) (events : List Event) :
    TimerInv (processEvents parse events) := by
  have hbase : TimerInv initialState := fun _ => Or.inl rfl
  unfold processEvents
  generalize initialState = s at hbase ⊢
  induction events generalizing s with
  | nil => exact hbase
  | cons e es ih =>
    rw [List.foldl_cons]
    exact ih _ (timerInv_stepEvent parse s e hbase)

theorem doneInv_stepLine (parse : List Char → Option JsonMsg) (s : SessionState)
    (line : List Char) (h : DoneInv s) : DoneInv (stepLine parse s line) := by
  unfold stepLine
  by_cases hb : (jsTrim line).isEmpty = true
  · rw [if_pos hb]
    exact h
  · rw [if_neg hb]
    cases hp : parse line with
    | none => exact h
    | some j =>
      dsimp only
      by_cases c1 : (!s.initialized && truthyStr j.jsonrpc && j.result.isSome
          && truthyPV j.result) = true
      · rw [if_pos c1]
        exact h
      · rw [if_neg c1]
        by_cases c2 : (j.id == some 2 && j.result.isSome) = true
        · rw [if_pos c2]
          refine ⟨?_, rfl⟩
          show settle s.status _ = _
          rw [h.1]
          rfl
        · rw [if_neg c2]
          by_cases c3 : j.error.isSome = true
          · rw [if_pos c3]
            refine ⟨?_, rfl⟩
            show settle s.status _ = _
            rw [h.1]
            rfl
          · rw [if_neg c3]
            exact h

theorem doneInv_fold (parse : List Char → Option JsonMsg) :
    ∀ (lines : List (List Char)) (s : SessionState),
      DoneInv s → DoneInv (lines.foldl (stepLine parse) s) := by
  intro lines
  induction lines with
  | nil => intro s h; exact h
  | cons l ls ih =>
    intro s h
    exact ih _ (doneInv_stepLine parse s l h)

theorem doneInv_stepEvent (parse : List Char → Option JsonMsg) (s : SessionState)
    (e : Event) (h : DoneInv s) : DoneInv (stepEvent parse s e) := by
  cases e with
  | data chunk => exact doneInv_fold parse _ _ ⟨h.1, h.2⟩
  | close code =>
    refine ⟨?_, h.2⟩
    show (if code ≠ 0 then settle s.status _ else s.status) = _
    by_cases hcode : code ≠ 0
    · rw [if_pos hcode]
      rw [h.1]
      rfl
    · rw [if_neg hcode]
      exact h.1
  | timerFire =>
    simp only [stepEvent]
    by_cases hcl : s.timeoutCleared = true
    · rw [if_pos hcl]
      exact h
    · rw [if_neg hcl]
      refine ⟨?_, rfl⟩
      show settle s.status _ = _
      rw [h.1]
      rfl

theorem doneInv_foldEvents (parse : List Char → Option JsonMsg) :
    ∀ (events : List Event) (s : SessionState),
      DoneInv s → DoneInv (events.foldl (stepEvent parse) s) := by
  intro events
  induction events with
  | nil => intro s h; exact h
  | cons e es ih =>
    intro s h
    exact ih _ (doneInv_stepEvent parse s e h)

/-- C2: the deadline is 30000 ms, and in every execution in which the
handshake acknowledgment was never received and the timer is still
armed when the deadline elapses, the session ends up failed with
`Timeout`, with the child process killed, whatever events follow. -/
theorem c2_timeout :
    timeoutMs = 30000
    ∧ ∀ (parse : List Char → Option JsonMsg) (pre post : List Event),
        (processEvents parse pre).initialized = false →
        (processEvents parse pre).timeoutCleared = false →
        (processEvents parse (pre ++ Event.timerFire :: post)).status
            = Status.failed Fault.timeout
          ∧ (processEvents parse (pre ++ Event.timerFire :: post)).killed = true := by
  refine ⟨rfl, ?_⟩
  intro parse pre post hinit hclear
  have hpre := timerInv_processEvents parse pre
  have hfire : DoneInv (stepEvent parse (processEvents parse pre) Event.timerFire) := by
    simp only [stepEvent]
    rw [if_neg (by rw [hclear]; exact Bool.false_ne_true)]
    refine ⟨?_, rfl⟩
    show settle (processEvents parse pre).status _ = _
    rcases hpre hclear with hpend | hdone
    · rw [hpend]
      rfl
    · rw [hdone.1]
      rfl
  have hsplit : processEvents parse (pre ++ Event.timerFire :: post)
      = post.foldl (stepEvent parse)
          (stepEvent parse (processEvents parse pre) Event.timerFire) := by
    simp [processEvents, List.foldl_append]
  rw [hsplit]
  exact doneInv_foldEvents parse post _ hfire

/-- C2 witness: a trace with one non-protocol stdout chunk and then the
timer firing; no acknowledgment was received and the timer was never
cleared, so the session fails with `Timeout` and the child is killed. -/
theorem c2_timeout_witness :
    (processEvents parseDemo [Event.data ("noise\n".toList)]).initialized = false
    ∧ (processEvents parseDemo [Event.data ("noise\n".toList)]).timeoutCleared = false
    ∧ ((processEvents parseDemo
          ([Event.data ("noise\n".toList)] ++ Event.timerFire :: [])).status
          = Status.failed Fault.timeout
        ∧ (processEvents parseDemo
            ([Event.data ("noise\n".toList)] ++ Event.timerFire :: [])).killed = true) :=
  ⟨by decide, by decide,
    c2_timeout.2 parseDemo [Event.data ("noise\n".toList)] [] (by decide) (by decide)⟩

end SlackSummary
